import Mathlib

/-!
# Verification of the UPC validator core (`upc_core.py`)

A shallow embedding of the `UPCValidator` class from `src/upc_core.py`.
Python strings are modelled as `List Char`; the mutable instance
attributes of the class become a record threaded explicitly through the
methods.  `validate` (which in Python mutates `self` and returns a
`bool`) becomes a function returning the boolean together with the
updated record.
-/

namespace UPC

/-- ASCII whitespace, modelling the character class removed by Python's
`str.strip()` with no arguments (space, tab, newline, carriage return,
vertical tab, form feed). -/
def isSpace (c : Char) : Bool :=
  c == ' ' || c == '\t' || c == '\n' || c == '\r' || c == '\x0b' || c == '\x0c'

/-- Python `str.strip()`: drop leading and trailing whitespace. -/
def strip (s : List Char) : List Char :=
  ((s.dropWhile isSpace).reverse.dropWhile isSpace).reverse

/-- Python `int(digit)` applied to a single digit character. -/
def digitVal (c : Char) : Nat := c.toNat - '0'.toNat

/-- Python `str.isdigit()` restricted to ASCII: non-empty and every
character a decimal digit `'0'`-`'9'`. -/
def pyIsdigit (s : List Char) : Bool := !s.isEmpty && s.all Char.isDigit

/-- The `PRODUCT_TYPES` class attribute: product type mappings based on
the first digit (lines 14-25 of `upc_core.py`). -/
def PRODUCT_TYPES : List (Char × String) :=
  [('0', "General groceries"),
   ('1', "Reserved for future use"),
   ('2', "Meat and produce (variable weight)"),
   ('3', "Drugs & health products"),
   ('4', "Non-food items (in-store)"),
   ('5', "Coupons"),
   ('6', "Other items"),
   ('7', "Other items"),
   ('8', "Reserved for future use"),
   ('9', "Reserved for future use")]

/-- Python `PRODUCT_TYPES.get(first_digit, 'Unknown')`. -/
def lookupProductType (c : Char) : String :=
  (PRODUCT_TYPES.lookup c).getD "Unknown"

/-- The mutable state of a `UPCValidator` instance. -/
structure UPCValidator where
  upc_code : List Char
  is_valid : Bool
  error_message : String
  product_type : String
  manufacturer_code : List Char
  product_code : List Char
  check_digit : List Char
deriving DecidableEq

/-- `UPCValidator.__init__`: stores the stripped code and initialises
every other attribute to its empty value (the empty-string attributes
holding code slices are modelled as `[]`). -/
def init (upc_code : List Char) : UPCValidator :=
  { upc_code := strip upc_code
    is_valid := false
    error_message := ""
    product_type := ""
    manufacturer_code := []
    product_code := []
    check_digit := [] }

/-- The f-string `f"UPC must be exactly 12 digits (got {len(self.upc_code)})"`. -/
def lengthMsg (n : Nat) : String :=
  "UPC must be exactly 12 digits (got " ++ toString n ++ ")"

/-- The literal `"UPC must contain only digits"`. -/
def digitMsg : String := "UPC must contain only digits"

/-- The f-string `f"Invalid check digit (sum = {total}, should be divisible by 10)"`. -/
def checksumMsg (total : Nat) : String :=
  "Invalid check digit (sum = " ++ toString total ++ ", should be divisible by 10)"

/-- The accumulation loop `for i, digit in enumerate(self.upc_code)`:
positions at even index contribute three times their digit value,
positions at odd index contribute the digit value itself. -/
def checksumAux : Nat → List Char → Nat
  | _, [] => 0
  | i, c :: rest =>
      (if i % 2 = 0 then 3 * digitVal c else digitVal c) + checksumAux (i + 1) rest

/-- The `total` computed at lines 53-60 of `validate`. -/
def checksum (s : List Char) : Nat := checksumAux 0 s

/-- `UPCValidator.decode`: populate the component fields from slices of
the code (guarded by the length test at line 74). -/
def decode (v : UPCValidator) : UPCValidator :=
  if v.upc_code.length = 12 then
    { v with
      product_type := lookupProductType v.upc_code.headI
      manufacturer_code := (v.upc_code.drop 1).take 5
      product_code := (v.upc_code.drop 6).take 5
      check_digit := (v.upc_code.drop 11).take 1 }
  else v

/-- `UPCValidator.validate`: length check, digit check, checksum check,
then `is_valid = True` and `decode()`. -/
def validate (v : UPCValidator) : Bool × UPCValidator :=
  if v.upc_code.length ≠ 12 then
    (false, { v with error_message := lengthMsg v.upc_code.length })
  else if pyIsdigit v.upc_code = false then
    (false, { v with error_message := digitMsg })
  else
    let total := checksum v.upc_code
    if total % 10 ≠ 0 then
      (false, { v with error_message := checksumMsg total })
    else
      (true, decode { v with is_valid := true })

/-- Python `str(digit)` for a digit `0 ≤ d ≤ 9`. -/
def digitChar (d : Nat) : Char := Char.ofNat (48 + d)

/-- The slice-and-concatenate
`self.upc_code[:missing_pos] + str(digit) + self.upc_code[missing_pos+1:]`. -/
def substitute (s : List Char) (pos : Nat) (d : Nat) : List Char :=
  s.take pos ++ [digitChar d] ++ s.drop (pos + 1)

/-- The membership test `char in ['?', '_']`. -/
def isPlaceholder (c : Char) : Bool := c == '?' || c == '_'

/-- The `for digit in range(10)` loop of `solve_missing_digit`: try each
candidate in order, returning the first substitution that validates. -/
def solveLoop (code : List Char) (pos : Nat) : List Nat → Option (List Char)
  | [] => none
  | d :: rest =>
      let test := substitute code pos d
      if (validate (init test)).1 = true then some test else solveLoop code pos rest

/-- `UPCValidator.solve_missing_digit`: count placeholders, find the
first placeholder position, try digits 0-9 in ascending order.  (The
`missing_pos = -1` case of the Python loop is unreachable: the count
guard guarantees a placeholder exists, so `findIdx` returns its index.) -/
def solve_missing_digit (v : UPCValidator) : Option (List Char) :=
  if v.upc_code.count '?' + v.upc_code.count '_' ≠ 1 then none
  else solveLoop v.upc_code (v.upc_code.findIdx isPlaceholder) (List.range 10)

/-- Construct a validator on input `s` and run `validate`. -/
def runValidate (s : List Char) : Bool × UPCValidator := validate (init s)

/-- Construct a validator on input `s` and run `solve_missing_digit`. -/
def runSolve (s : List Char) : Option (List Char) := solve_missing_digit (init s)

/-- Specification-level weighted sum: 3 times the digit at each
0-indexed even position plus 1 times the digit at each odd position. -/
def weightedSum (s : List Char) : Nat :=
  (s.enum.map (fun ic => (if ic.1 % 2 = 0 then 3 else 1) * digitVal ic.2)).sum

/-! ## Character-class facts -/

lemma not_space_of_isDigit {c : Char} (h : c.isDigit = true) : isSpace c = false := by
  simp only [isSpace, Bool.or_eq_false_iff, beq_eq_false_iff_ne]
  refine ⟨⟨⟨⟨⟨?_, ?_⟩, ?_⟩, ?_⟩, ?_⟩, ?_⟩ <;> rintro rfl <;> exact absurd h (by decide)

lemma digitChar_spec : ∀ d : Nat, d < 10 →
    (digitChar d).isDigit = true ∧ isSpace (digitChar d) = false ∧
    isPlaceholder (digitChar d) = false ∧ digitVal (digitChar d) = d := by
  decide

lemma not_digit_of_placeholder {c : Char} (h : isPlaceholder c = true) :
    c.isDigit = false := by
  simp only [isPlaceholder, Bool.or_eq_true, beq_iff_eq] at h
  rcases h with rfl | rfl <;> decide

lemma not_space_of_placeholder {c : Char} (h : isPlaceholder c = true) :
    isSpace c = false := by
  simp only [isPlaceholder, Bool.or_eq_true, beq_iff_eq] at h
  rcases h with rfl | rfl <;> decide

/-! ## Facts about `strip` -/

lemma dropWhile_eq_self_of_head {p : Char → Bool} {l : List Char}
    (h : ∀ c, l.head? = some c → p c = false) : l.dropWhile p = l := by
  cases l with
  | nil => rfl
  | cons a l => simp [List.dropWhile_cons, h a rfl]

lemma dropWhile_all_not {p : Char → Bool} {l : List Char}
    (h : ∀ c ∈ l, p c = false) : l.dropWhile p = l := by
  cases l with
  | nil => rfl
  | cons a l => simp [List.dropWhile_cons, h a (List.mem_cons_self a l)]

lemma dropWhile_append_all {p : Char → Bool} {a : List Char} (b : List Char)
    (h : ∀ c ∈ a, p c = true) : (a ++ b).dropWhile p = b.dropWhile p := by
  induction a with
  | nil => rfl
  | cons x a ih =>
      simp only [List.cons_append, List.dropWhile_cons,
        h x (List.mem_cons_self x a), if_true]
      exact ih fun c hc => h c (List.mem_cons_of_mem x hc)

lemma head?_dropWhile_not (p : Char → Bool) :
    ∀ (l : List Char) (c : Char), (l.dropWhile p).head? = some c → p c = false := by
  intro l
  induction l with
  | nil => intro c h; simp at h
  | cons a l ih =>
      intro c h
      by_cases ha : p a = true
      · rw [List.dropWhile_cons, if_pos ha] at h
        exact ih c h
      · rw [List.dropWhile_cons, if_neg ha] at h
        simp only [List.head?_cons, Option.some.injEq] at h
        subst h
        simpa using ha

lemma strip_all_not_space {s : List Char} (h : ∀ c ∈ s, isSpace c = false) :
    strip s = s := by
  unfold strip
  rw [dropWhile_all_not h, dropWhile_all_not, List.reverse_reverse]
  intro c hc
  exact h c (List.mem_reverse.mp hc)

lemma strip_spaces_around {w₁ w₂ m : List Char}
    (h₁ : ∀ c ∈ w₁, isSpace c = true) (h₂ : ∀ c ∈ w₂, isSpace c = true)
    (hm : ∀ c ∈ m, isSpace c = false) (hne : m ≠ []) :
    strip (w₁ ++ m ++ w₂) = m := by
  unfold strip
  rw [List.append_assoc, dropWhile_append_all (m ++ w₂) h₁]
  obtain ⟨a, m', rfl⟩ : ∃ a m', m = a :: m' := by
    cases m with
    | nil => exact absurd rfl hne
    | cons a m' => exact ⟨a, m', rfl⟩
  rw [List.cons_append, List.dropWhile_cons,
    if_neg (by simp [hm a (List.mem_cons_self a m')])]
  rw [← List.cons_append, List.reverse_append,
    dropWhile_append_all (a :: m').reverse (fun c hc => h₂ c (List.mem_reverse.mp hc)),
    dropWhile_all_not (fun c hc => hm c (List.mem_reverse.mp hc)),
    List.reverse_reverse]

lemma strip_head_not_space {s : List Char} {c : Char}
    (h : (strip s).head? = some c) : isSpace c = false := by
  unfold strip at h
  set x := s.dropWhile isSpace with hx
  set y := x.reverse.dropWhile isSpace with hy
  have hdecomp : x.reverse.takeWhile isSpace ++ y = x.reverse :=
    List.takeWhile_append_dropWhile ..
  have hxeq : x = y.reverse ++ (x.reverse.takeWhile isSpace).reverse := by
    have := congrArg List.reverse hdecomp
    rw [List.reverse_append, List.reverse_reverse] at this
    exact this.symm
  have hhead : x.head? = some c := by
    rw [hxeq, List.head?_append, h, Option.or_some]
  exact head?_dropWhile_not isSpace s c (hx ▸ hhead)

lemma strip_getLast_not_space {s : List Char} {c : Char}
    (h : (strip s).getLast? = some c) : isSpace c = false := by
  unfold strip at h
  rw [List.getLast?_reverse] at h
  exact head?_dropWhile_not isSpace _ c h

lemma strip_eq_self_of_ends {s : List Char} {h g : Char}
    (hh : s.head? = some h) (hws : isSpace h = false)
    (hg : s.getLast? = some g) (hgws : isSpace g = false) : strip s = s := by
  unfold strip
  have h1 : s.dropWhile isSpace = s :=
    dropWhile_eq_self_of_head fun c hc => by
      rw [hh] at hc; cases hc; exact hws
  rw [h1]
  have h2 : s.reverse.dropWhile isSpace = s.reverse :=
    dropWhile_eq_self_of_head fun c hc => by
      rw [List.head?_reverse, hg] at hc; cases hc; exact hgws
  rw [h2, List.reverse_reverse]

lemma count_strip {s : List Char} {c : Char} (hc : isSpace c = false) :
    (strip s).count c = s.count c := by
  have key : ∀ l : List Char, (l.dropWhile isSpace).count c = l.count c := by
    intro l
    have hz : (l.takeWhile isSpace).count c = 0 := by
      refine List.count_eq_zero_of_not_mem fun hmem => ?_
      have := List.mem_takeWhile_imp hmem
      rw [hc] at this
      exact absurd this (by simp)
    conv_rhs => rw [← List.takeWhile_append_dropWhile isSpace l]
    rw [List.count_append, hz, Nat.zero_add]
  unfold strip
  rw [List.count_reverse, key, List.count_reverse, key]

/-! ## Facts about the checksum -/

lemma checksumAux_append (a : List Char) :
    ∀ (i : Nat) (b : List Char),
      checksumAux i (a ++ b) = checksumAux i a + checksumAux (i + a.length) b := by
  induction a with
  | nil => intro i b; simp [checksumAux]
  | cons c a ih =>
      intro i b
      simp only [List.cons_append, checksumAux, List.length_cons, List.append_eq]
      rw [ih (i + 1) b, show i + 1 + a.length = i + (a.length + 1) from by omega,
        Nat.add_assoc]

lemma checksumAux_enumFrom :
    ∀ (s : List Char) (i : Nat),
      checksumAux i s =
        ((List.enumFrom i s).map
          (fun ic => (if ic.1 % 2 = 0 then 3 else 1) * digitVal ic.2)).sum := by
  intro s
  induction s with
  | nil => intro i; simp [checksumAux]
  | cons c s ih =>
      intro i
      simp only [checksumAux, List.enumFrom_cons, List.map_cons, List.sum_cons, ih (i + 1)]
      congr 1
      split <;> omega

lemma checksum_eq_weightedSum (s : List Char) : checksum s = weightedSum s := by
  unfold checksum weightedSum
  rw [checksumAux_enumFrom s 0]
  rfl

/-! ## Unfolding the branches of `validate` -/

lemma pyIsdigit_iff {s : List Char} :
    pyIsdigit s = true ↔ s ≠ [] ∧ ∀ c ∈ s, c.isDigit = true := by
  simp [pyIsdigit, List.all_eq_true, List.isEmpty_iff]

lemma runValidate_length_fail {s : List Char} (h : (strip s).length ≠ 12) :
    runValidate s =
      (false, { init s with error_message := lengthMsg (strip s).length }) := by
  unfold runValidate validate
  rw [if_pos (show (init s).upc_code.length ≠ 12 from h)]
  rfl

lemma runValidate_digit_fail {s : List Char} (h12 : (strip s).length = 12)
    (hd : pyIsdigit (strip s) = false) :
    runValidate s = (false, { init s with error_message := digitMsg }) := by
  unfold runValidate validate
  rw [if_neg (by simpa [init] using h12), if_pos (by simpa [init] using hd)]

lemma runValidate_checksum_fail {s : List Char} (h12 : (strip s).length = 12)
    (hd : pyIsdigit (strip s) = true) (hc : checksum (strip s) % 10 ≠ 0) :
    runValidate s =
      (false, { init s with error_message := checksumMsg (checksum (strip s)) }) := by
  unfold runValidate validate
  rw [if_neg (by simpa [init] using h12),
    if_neg (by simp [init, hd]), if_pos (by simpa [init] using hc)]
  rfl

lemma runValidate_success {s : List Char} (h12 : (strip s).length = 12)
    (hd : pyIsdigit (strip s) = true) (hc : checksum (strip s) % 10 = 0) :
    runValidate s =
      (true,
        { upc_code := strip s
          is_valid := true
          error_message := ""
          product_type := lookupProductType (strip s).headI
          manufacturer_code := ((strip s).drop 1).take 5
          product_code := ((strip s).drop 6).take 5
          check_digit := ((strip s).drop 11).take 1 }) := by
  unfold runValidate validate
  rw [if_neg (by simpa [init] using h12), if_neg (by simp [init, hd]),
    if_neg (by simpa [init] using hc)]
  unfold decode
  rw [if_pos (by simpa [init] using h12)]
  rfl

lemma validate_true_iff (s : List Char) :
    (runValidate s).1 = true ↔
      (strip s).length = 12 ∧ pyIsdigit (strip s) = true ∧
        checksum (strip s) % 10 = 0 := by
  constructor
  · intro h
    by_cases h12 : (strip s).length = 12
    · by_cases hd : pyIsdigit (strip s) = true
      · by_cases hc : checksum (strip s) % 10 = 0
        · exact ⟨h12, hd, hc⟩
        · rw [runValidate_checksum_fail h12 hd hc] at h; cases h
      · rw [runValidate_digit_fail h12 (by simpa using hd)] at h; cases h
    · rw [runValidate_length_fail h12] at h; cases h
  · rintro ⟨h12, hd, hc⟩
    rw [runValidate_success h12 hd hc]

/-! ## Facts about the checksum of a string with one distinguished position -/

lemma checksum_sandwich (a b : List Char) (c : Char) :
    checksum (a ++ [c] ++ b) =
      checksumAux 0 a +
        (if a.length % 2 = 0 then 3 * digitVal c else digitVal c) +
        checksumAux (a.length + 1) b := by
  unfold checksum
  rw [checksumAux_append (a ++ [c]) 0 b, checksumAux_append a 0 [c]]
  simp [checksumAux, List.length_append]

lemma valid_sandwich_iff {a b : List Char} {d : Nat}
    (ha : ∀ c ∈ a, c.isDigit = true) (hb : ∀ c ∈ b, c.isDigit = true)
    (hlen : a.length + 1 + b.length = 12) (hd : d < 10) :
    (runValidate (a ++ [digitChar d] ++ b)).1 = true ↔
      (checksumAux 0 a + (if a.length % 2 = 0 then 3 * d else d) +
        checksumAux (a.length + 1) b) % 10 = 0 := by
  obtain ⟨hdig, hsp, hph, hval⟩ := digitChar_spec d hd
  have htdig : ∀ c ∈ a ++ [digitChar d] ++ b, c.isDigit = true := by
    intro c hcm
    rcases List.mem_append.mp hcm with h | h
    · rcases List.mem_append.mp h with h | h
      · exact ha c h
      · rw [List.mem_singleton.mp h]
        exact hdig
    · exact hb c h
  have hstrip : strip (a ++ [digitChar d] ++ b) = a ++ [digitChar d] ++ b :=
    strip_all_not_space fun c hcm => not_space_of_isDigit (htdig c hcm)
  have hlen12 : (a ++ [digitChar d] ++ b).length = 12 := by
    simp only [List.length_append, List.length_singleton]
    omega
  have hne : a ++ [digitChar d] ++ b ≠ [] :=
    List.ne_nil_of_length_pos (by omega)
  rw [validate_true_iff, hstrip, checksum_sandwich, hval]
  have hpy : pyIsdigit (a ++ [digitChar d] ++ b) = true :=
    pyIsdigit_iff.mpr ⟨hne, htdig⟩
  constructor
  · rintro ⟨-, -, h⟩
    exact h
  · intro h
    exact ⟨hlen12, hpy, h⟩

lemma sandwich_unique {a b : List Char} {d e : Nat}
    (ha : ∀ c ∈ a, c.isDigit = true) (hb : ∀ c ∈ b, c.isDigit = true)
    (hlen : a.length + 1 + b.length = 12) (hd : d < 10) (he : e < 10)
    (h₁ : (runValidate (a ++ [digitChar d] ++ b)).1 = true)
    (h₂ : (runValidate (a ++ [digitChar e] ++ b)).1 = true) : d = e := by
  rw [valid_sandwich_iff ha hb hlen hd] at h₁
  rw [valid_sandwich_iff ha hb hlen he] at h₂
  by_cases hp : a.length % 2 = 0
  · rw [if_pos hp] at h₁ h₂
    omega
  · rw [if_neg hp] at h₁ h₂
    omega

/-! ## Facts about the solver loop -/

lemma solveLoop_eq_some_of_unique (code : List Char) (pos d : Nat)
    (hvalid : (runValidate (substitute code pos d)).1 = true) :
    ∀ l : List Nat, d ∈ l →
      (∀ e ∈ l, (runValidate (substitute code pos e)).1 = true → e = d) →
      solveLoop code pos l = some (substitute code pos d) := by
  intro l
  induction l with
  | nil => intro h; simp at h
  | cons a rest ih =>
      intro hmem huniq
      by_cases hv : (validate (init (substitute code pos a))).1 = true
      · have hae : a = d := huniq a (List.mem_cons_self a rest) hv
        subst hae
        simp only [solveLoop]
        rw [if_pos hv]
      · simp only [solveLoop]
        rw [if_neg hv]
        apply ih
        · rcases List.mem_cons.mp hmem with h | h
          · exact absurd (h ▸ hvalid) hv
          · exact h
        · intro f hf hfv
          exact huniq f (List.mem_cons_of_mem a hf) hfv

lemma solveLoop_range'_some (code : List Char) (pos : Nat) :
    ∀ (n k : Nat) (r : List Char), solveLoop code pos (List.range' k n) = some r →
      ∃ d, k ≤ d ∧ d < k + n ∧ r = substitute code pos d ∧
        (runValidate (substitute code pos d)).1 = true ∧
        ∀ e, k ≤ e → e < d → (runValidate (substitute code pos e)).1 = false := by
  intro n
  induction n with
  | zero =>
      intro k r h
      simp [List.range', solveLoop] at h
  | succ n ih =>
      intro k r h
      rw [List.range'_succ] at h
      simp only [solveLoop] at h
      by_cases hv : (validate (init (substitute code pos k))).1 = true
      · rw [if_pos hv] at h
        have hr : substitute code pos k = r := by injection h
        exact ⟨k, Nat.le_refl k, by omega, hr.symm, hv, fun e he1 he2 => by omega⟩
      · rw [if_neg hv] at h
        obtain ⟨d, hd1, hd2, hd3, hd4, hd5⟩ := ih (k + 1) r h
        refine ⟨d, by omega, by omega, hd3, hd4, ?_⟩
        intro e he1 he2
        by_cases hek : e = k
        · subst hek
          show (validate (init (substitute code pos e))).1 = false
          revert hv
          cases (validate (init (substitute code pos e))).1 <;> simp
        · exact hd5 e (by omega) he2

lemma count_one_exists {t : List Char} (h : t.count '?' + t.count '_' = 1) :
    ∃ c ∈ t, isPlaceholder c = true := by
  have hor : 0 < t.count '?' ∨ 0 < t.count '_' := by omega
  rcases hor with h' | h'
  · exact ⟨'?', List.count_pos_iff.mp h', by decide⟩
  · exact ⟨'_', List.count_pos_iff.mp h', by decide⟩

lemma runSolve_eq_solveLoop {s : List Char}
    (h : (strip s).count '?' + (strip s).count '_' = 1) :
    runSolve s =
      solveLoop (strip s) ((strip s).findIdx isPlaceholder) (List.range 10) := by
  unfold runSolve solve_missing_digit
  have hcond : ¬ ((init s).upc_code.count '?' + (init s).upc_code.count '_' ≠ 1) :=
    fun hc => hc h
  rw [if_neg hcond]
  rfl

lemma substitute_at_end (p : List Char) (q : Char) (d : Nat) :
    substitute (p ++ [q]) p.length d = p ++ [digitChar d] := by
  unfold substitute
  rw [List.take_left,
    show p.length + 1 = (p ++ [q]).length by simp, List.drop_length,
    List.append_nil]

lemma head?_take {l : List Char} {n : Nat} (hn : 0 < n) :
    (l.take n).head? = l.head? := by
  cases n with
  | zero => omega
  | succ n => cases l <;> rfl

lemma strip_substitute {s : List Char} {pos d : Nat}
    (hpos : pos < (strip s).length) (hd : d < 10) :
    strip (substitute (strip s) pos d) = substitute (strip s) pos d := by
  have htne : strip s ≠ [] := List.ne_nil_of_length_pos (by omega)
  have hdigc : isSpace (digitChar d) = false := (digitChar_spec d hd).2.1
  have hhead : ∃ h0, (substitute (strip s) pos d).head? = some h0 ∧
      isSpace h0 = false := by
    rcases Nat.eq_zero_or_pos pos with hp0 | hppos
    · refine ⟨digitChar d, ?_, hdigc⟩
      subst hp0
      unfold substitute
      rw [List.take_zero]
      rfl
    · obtain ⟨h0, hh0⟩ :=
        Option.isSome_iff_exists.mp (List.head?_isSome.mpr htne)
      refine ⟨h0, ?_, strip_head_not_space hh0⟩
      unfold substitute
      rw [List.head?_append, List.head?_append, head?_take hppos, hh0]
      rfl
  have hlast : ∃ g0, (substitute (strip s) pos d).getLast? = some g0 ∧
      isSpace g0 = false := by
    by_cases hb : (strip s).drop (pos + 1) = []
    · refine ⟨digitChar d, ?_, hdigc⟩
      unfold substitute
      rw [hb, List.append_nil,
        List.getLast?_append_of_ne_nil _ (by simp : [digitChar d] ≠ []),
        List.getLast?_singleton]
    · obtain ⟨g0, hg0⟩ :=
        Option.isSome_iff_exists.mp (List.getLast?_isSome.mpr hb)
      have hgt : (strip s).getLast? = some g0 := by
        conv_lhs => rw [← List.take_append_drop (pos + 1) (strip s)]
        rw [List.getLast?_append_of_ne_nil _ hb]
        exact hg0
      refine ⟨g0, ?_, strip_getLast_not_space hgt⟩
      unfold substitute
      rw [List.getLast?_append_of_ne_nil _ hb]
      exact hg0
  obtain ⟨h0, hh1, hh2⟩ := hhead
  obtain ⟨g0, hg1, hg2⟩ := hlast
  exact strip_eq_self_of_ends hh1 hh2 hg1 hg2

lemma headI_eq_getD {s : List Char} (h : s ≠ []) : s.headI = s.getD 0 ' ' := by
  cases s with
  | nil => exact absurd rfl h
  | cons a t => rfl

lemma eq_singleton_of_length_one {l : List Char} (h : l.length = 1) :
    l = [l.getD 0 ' '] := by
  cases l with
  | nil => cases h
  | cons a t =>
      cases t with
      | nil => rfl
      | cons b t => simp at h

/-! ## Claim theorems -/

/-- C1: for every string of exactly 12 decimal-digit characters, `validate`
succeeds iff the weighted sum (3 times the digits at 0-indexed even
positions plus the digits at odd positions) is divisible by 10, and when it
is not, `validate` fails with the checksum message reporting the total. -/
theorem C1_twelve_digits_valid_iff_checksum :
    ∀ s : List Char, s.length = 12 → (∀ c ∈ s, c.isDigit = true) →
      ((runValidate s).1 = true ↔ weightedSum s % 10 = 0) ∧
      (weightedSum s % 10 ≠ 0 →
        (runValidate s).1 = false ∧
        (runValidate s).2.error_message = checksumMsg (weightedSum s)) := by
  intro s h12 hdig
  have hstrip : strip s = s :=
    strip_all_not_space fun c hc => not_space_of_isDigit (hdig c hc)
  have hne : s ≠ [] := List.ne_nil_of_length_pos (by omega)
  have hpy : pyIsdigit s = true := pyIsdigit_iff.mpr ⟨hne, hdig⟩
  constructor
  · rw [validate_true_iff, hstrip, checksum_eq_weightedSum]
    simp [h12, hpy]
  · intro hc
    have heq := runValidate_checksum_fail (s := s)
      (by rw [hstrip]; exact h12) (by rw [hstrip]; exact hpy)
      (by rw [hstrip, checksum_eq_weightedSum]; exact hc)
    rw [heq]
    exact ⟨rfl, by simp [hstrip, checksum_eq_weightedSum]⟩

/-- Witness for C1 at the concrete invalid code `"123456789013"`
(weighted sum 101). -/
theorem C1_witness :
    ("123456789013".data.length = 12 ∧
      (∀ c ∈ "123456789013".data, c.isDigit = true)) ∧
    (((runValidate "123456789013".data).1 = true ↔
        weightedSum "123456789013".data % 10 = 0) ∧
      (weightedSum "123456789013".data % 10 ≠ 0 →
        (runValidate "123456789013".data).1 = false ∧
        (runValidate "123456789013".data).2.error_message =
          checksumMsg (weightedSum "123456789013".data))) :=
  ⟨⟨by decide, by decide⟩,
    C1_twelve_digits_valid_iff_checksum "123456789013".data (by decide) (by decide)⟩

/-- C2 as stated is false: the constructor strips whitespace before the
checks, so the length-12 string `" 36000291452"` (a space followed by 11
digits), which contains a non-digit character, is reported with the length
reason (length 11 after stripping), not the non-digit-character reason. -/
theorem C2_counterexample :
    " 36000291452".data.length = 12 ∧
    (' ' ∈ " 36000291452".data ∧ ' '.isDigit = false) ∧
    (runValidate " 36000291452".data).2.error_message = lengthMsg 11 ∧
    (runValidate " 36000291452".data).2.error_message ≠ digitMsg := by
  decide

/-- C2 amended: the checks run in the order length, character class,
checksum on the whitespace-stripped code, and the reported error reflects
the first failing check: when the stripped code's length is not 12 the
length reason is reported regardless of the characters, and when the
stripped code has length 12 and contains a non-digit the character reason
is reported (the checksum is never consulted). -/
theorem C2_first_failing_check :
    ∀ s : List Char,
      ((strip s).length ≠ 12 →
        (runValidate s).1 = false ∧
        (runValidate s).2.error_message = lengthMsg (strip s).length) ∧
      ((strip s).length = 12 → (∃ c ∈ strip s, c.isDigit = false) →
        (runValidate s).1 = false ∧
        (runValidate s).2.error_message = digitMsg) := by
  intro s
  constructor
  · intro h
    rw [runValidate_length_fail h]
    exact ⟨rfl, rfl⟩
  · rintro h12 ⟨c, hc, hcd⟩
    have hall : (strip s).all Char.isDigit = false :=
      List.all_eq_false.mpr ⟨c, hc, by simp [hcd]⟩
    have hd : pyIsdigit (strip s) = false := by
      simp [pyIsdigit, hall]
    rw [runValidate_digit_fail h12 hd]
    exact ⟨rfl, rfl⟩

/-- Witness for C2 (amended) at `"12345678901"` (stripped length 11) and
`"12345678901X"` (length 12 with a non-digit). -/
theorem C2_witness :
    ((strip "12345678901".data).length ≠ 12 ∧
      (runValidate "12345678901".data).1 = false ∧
      (runValidate "12345678901".data).2.error_message =
        lengthMsg (strip "12345678901".data).length) ∧
    ((strip "12345678901X".data).length = 12 ∧
      (∃ c ∈ strip "12345678901X".data, c.isDigit = false) ∧
      (runValidate "12345678901X".data).1 = false ∧
      (runValidate "12345678901X".data).2.error_message = digitMsg) :=
  ⟨⟨by decide, (C2_first_failing_check "12345678901".data).1 (by decide)⟩,
    ⟨by decide, ⟨'X', by decide, by decide⟩,
      (C2_first_failing_check "12345678901X".data).2 (by decide)
        ⟨'X', by decide, by decide⟩⟩⟩

/-- C3 as stated is false: the length-14 string `" 036000291452 "` (a valid
code surrounded by whitespace) has length different from 12 yet `validate`
succeeds, because the constructor strips whitespace first. -/
theorem C3_counterexample :
    " 036000291452 ".data.length = 14 ∧
    (runValidate " 036000291452 ".data).1 = true := by
  decide

/-- C3 amended: for every string whose whitespace-stripped form has length
different from 12, `validate` returns invalid with the length reason, and
the error message reports the length of the stripped code; no further
checks are performed (the decoded fields stay empty). -/
theorem C3_length_check_first :
    ∀ s : List Char, (strip s).length ≠ 12 →
      (runValidate s).1 = false ∧
      (runValidate s).2.is_valid = false ∧
      (runValidate s).2.error_message = lengthMsg (strip s).length ∧
      (runValidate s).2.product_type = "" := by
  intro s h
  rw [runValidate_length_fail h]
  exact ⟨rfl, rfl, rfl, rfl⟩

/-- Witness for C3 (amended) at the 11-character input `"12345678901"`. -/
theorem C3_witness :
    (strip "12345678901".data).length ≠ 12 ∧
    (runValidate "12345678901".data).1 = false ∧
    (runValidate "12345678901".data).2.is_valid = false ∧
    (runValidate "12345678901".data).2.error_message = lengthMsg 11 ∧
    (runValidate "12345678901".data).2.product_type = "" :=
  ⟨by decide, C3_length_check_first "12345678901".data (by decide)⟩

/-- C6: whenever the total count of placeholder characters (question mark
plus underscore) differs from 1, `solve_missing_digit` returns `none`. -/
theorem C6_placeholder_count_guard :
    ∀ s : List Char, s.count '?' + s.count '_' ≠ 1 → runSolve s = none := by
  intro s h
  have h1 : (strip s).count '?' = s.count '?' := count_strip (by decide)
  have h2 : (strip s).count '_' = s.count '_' := count_strip (by decide)
  unfold runSolve solve_missing_digit
  have hcond : (init s).upc_code.count '?' + (init s).upc_code.count '_' ≠ 1 := by
    show (strip s).count '?' + (strip s).count '_' ≠ 1
    rw [h1, h2]
    exact h
  rw [if_pos hcond]

/-- Witness for C6 at the placeholder-free code `"036000291452"` and the
double-placeholder code `"0360?029145_"`. -/
theorem C6_witness :
    ("036000291452".data.count '?' + "036000291452".data.count '_' ≠ 1 ∧
      runSolve "036000291452".data = none) ∧
    ("0360?029145_".data.count '?' + "0360?029145_".data.count '_' ≠ 1 ∧
      runSolve "0360?029145_".data = none) :=
  ⟨⟨by decide, C6_placeholder_count_guard "036000291452".data (by decide)⟩,
    ⟨by decide, C6_placeholder_count_guard "0360?029145_".data (by decide)⟩⟩

/-- C7: for every valid 12-digit code the decoded fields are exactly the
slices of the input (product type from position 0 via the fixed table,
manufacturer positions 1-5, product positions 6-10, check digit position
11), and concretely `"036000291452"` decodes to General groceries /
36000 / 29145 / 2. -/
theorem C7_decode_fields_are_slices :
    (∀ s : List Char, s.length = 12 → (∀ c ∈ s, c.isDigit = true) →
      checksum s % 10 = 0 →
      (runValidate s).1 = true ∧
      (runValidate s).2.product_type = lookupProductType (s.getD 0 ' ') ∧
      ((runValidate s).2.manufacturer_code.length = 5 ∧
        ∀ i < 5, (runValidate s).2.manufacturer_code.getD i ' ' = s.getD (1 + i) ' ') ∧
      ((runValidate s).2.product_code.length = 5 ∧
        ∀ i < 5, (runValidate s).2.product_code.getD i ' ' = s.getD (6 + i) ' ') ∧
      (runValidate s).2.check_digit = [s.getD 11 ' ']) ∧
    ((runValidate "036000291452".data).1 = true ∧
      (runValidate "036000291452".data).2.product_type = "General groceries" ∧
      (runValidate "036000291452".data).2.manufacturer_code = "36000".data ∧
      (runValidate "036000291452".data).2.product_code = "29145".data ∧
      (runValidate "036000291452".data).2.check_digit = "2".data) := by
  constructor
  · intro s h12 hdig hc
    have hstrip : strip s = s :=
      strip_all_not_space fun c hcm => not_space_of_isDigit (hdig c hcm)
    have hne : s ≠ [] := List.ne_nil_of_length_pos (by omega)
    have hpy : pyIsdigit s = true := pyIsdigit_iff.mpr ⟨hne, hdig⟩
    have heq := runValidate_success (s := s)
      (by rw [hstrip]; exact h12) (by rw [hstrip]; exact hpy)
      (by rw [hstrip]; exact hc)
    rw [heq]
    refine ⟨rfl, ?_, ⟨?_, ?_⟩, ⟨?_, ?_⟩, ?_⟩
    · show lookupProductType (strip s).headI = lookupProductType (s.getD 0 ' ')
      rw [hstrip, headI_eq_getD hne]
    · show (((strip s).drop 1).take 5).length = 5
      rw [hstrip]
      simp [List.length_take, List.length_drop, h12]
    · intro i hi
      show (((strip s).drop 1).take 5).getD i ' ' = s.getD (1 + i) ' '
      rw [hstrip]
      simp [List.getD_eq_getElem?_getD, List.getElem?_take, hi, List.getElem?_drop,
        Nat.add_comm]
    · show (((strip s).drop 6).take 5).length = 5
      rw [hstrip]
      simp [List.length_take, List.length_drop, h12]
    · intro i hi
      show (((strip s).drop 6).take 5).getD i ' ' = s.getD (6 + i) ' '
      rw [hstrip]
      simp [List.getD_eq_getElem?_getD, List.getElem?_take, hi, List.getElem?_drop,
        Nat.add_comm]
    · show ((strip s).drop 11).take 1 = [s.getD 11 ' ']
      rw [hstrip]
      have hlen : (s.drop 11).length = 1 := by
        rw [List.length_drop, h12]
      have htake : (s.drop 11).take 1 = s.drop 11 := by
        apply List.take_of_length_le
        omega
      rw [htake, eq_singleton_of_length_one hlen,
        List.getD_eq_getElem?_getD, List.getElem?_drop,
        ← List.getD_eq_getElem?_getD]
  · exact ⟨by decide, by decide, by decide, by decide, by decide⟩

/-- Witness for C7 at the valid code `"012000161155"`. -/
theorem C7_witness :
    ("012000161155".data.length = 12 ∧
      (∀ c ∈ "012000161155".data, c.isDigit = true) ∧
      checksum "012000161155".data % 10 = 0) ∧
    ((runValidate "012000161155".data).1 = true ∧
      (runValidate "012000161155".data).2.product_type =
        lookupProductType ("012000161155".data.getD 0 ' ') ∧
      ((runValidate "012000161155".data).2.manufacturer_code.length = 5 ∧
        ∀ i < 5, (runValidate "012000161155".data).2.manufacturer_code.getD i ' ' =
          "012000161155".data.getD (1 + i) ' ') ∧
      ((runValidate "012000161155".data).2.product_code.length = 5 ∧
        ∀ i < 5, (runValidate "012000161155".data).2.product_code.getD i ' ' =
          "012000161155".data.getD (6 + i) ' ') ∧
      (runValidate "012000161155".data).2.check_digit =
        ["012000161155".data.getD 11 ' ']) :=
  ⟨⟨by decide, by decide, by decide⟩,
    C7_decode_fields_are_slices.1 "012000161155".data (by decide) (by decide) (by decide)⟩

/-- C8: the product-type table has exactly the ten digit keys in order;
the lookup falls back to "Unknown" for a key absent from the table; and
when the (stripped) input is absent or contains a non-digit, the
product-type field keeps the distinguished empty marker rather than
"Unknown", because decoding never runs. -/
theorem C8_product_type_table :
    (PRODUCT_TYPES.map Prod.fst =
        ['0', '1', '2', '3', '4', '5', '6', '7', '8', '9'] ∧
      PRODUCT_TYPES.length = 10) ∧
    (∀ c : Char, PRODUCT_TYPES.lookup c = none → lookupProductType c = "Unknown") ∧
    (∀ s : List Char, (strip s = [] ∨ ∃ c ∈ strip s, c.isDigit = false) →
      (runValidate s).2.product_type = "" ∧
      (runValidate s).2.product_type ≠ "Unknown") := by
  refine ⟨⟨by decide, by decide⟩, ?_, ?_⟩
  · intro c h
    unfold lookupProductType
    rw [h]
    rfl
  · intro s h
    have hempty : (runValidate s).2.product_type = "" := by
      rcases h with h | ⟨c, hc, hcd⟩
      · have h12 : (strip s).length ≠ 12 := by
          rw [h]
          decide
        rw [runValidate_length_fail h12]
        rfl
      · by_cases h12 : (strip s).length = 12
        · have hall : (strip s).all Char.isDigit = false :=
            List.all_eq_false.mpr ⟨c, hc, by simp [hcd]⟩
          have hd : pyIsdigit (strip s) = false := by
            simp [pyIsdigit, hall]
          rw [runValidate_digit_fail h12 hd]
          rfl
        · rw [runValidate_length_fail h12]
          rfl
    refine ⟨hempty, ?_⟩
    rw [hempty]
    decide

/-- Witness for C8: the table fallback at `'X'` and the empty marker on
the empty input and on `"12345678901X"`. -/
theorem C8_witness :
    (PRODUCT_TYPES.lookup 'X' = none ∧ lookupProductType 'X' = "Unknown") ∧
    (strip ("".data) = [] ∧ (runValidate "".data).2.product_type = "") ∧
    ((∃ c ∈ strip "12345678901X".data, c.isDigit = false) ∧
      (runValidate "12345678901X".data).2.product_type = "" ∧
      (runValidate "12345678901X".data).2.product_type ≠ "Unknown") :=
  ⟨⟨by decide, C8_product_type_table.2.1 'X' (by decide)⟩,
    ⟨by decide, (C8_product_type_table.2.2 "".data (Or.inl (by decide))).1⟩,
    ⟨⟨'X', by decide, by decide⟩,
      C8_product_type_table.2.2 "12345678901X".data
        (Or.inr ⟨'X', by decide, by decide⟩)⟩⟩

/-- C9: on every failing input, `is_valid` stays false, the error message
is one of the three canonical reasons, and all four decoded fields stay
empty — decoding only runs after all three checks succeed. -/
theorem C9_failure_atomicity :
    ∀ s : List Char, (runValidate s).1 = false →
      (runValidate s).2.is_valid = false ∧
      ((runValidate s).2.error_message = lengthMsg (strip s).length ∨
        (runValidate s).2.error_message = digitMsg ∨
        (runValidate s).2.error_message = checksumMsg (checksum (strip s))) ∧
      (runValidate s).2.product_type = "" ∧
      (runValidate s).2.manufacturer_code = [] ∧
      (runValidate s).2.product_code = [] ∧
      (runValidate s).2.check_digit = [] := by
  intro s h
  by_cases h12 : (strip s).length = 12
  · by_cases hd : pyIsdigit (strip s) = true
    · by_cases hc : checksum (strip s) % 10 = 0
      · rw [runValidate_success h12 hd hc] at h
        cases h
      · rw [runValidate_checksum_fail h12 hd hc]
        exact ⟨rfl, Or.inr (Or.inr rfl), rfl, rfl, rfl, rfl⟩
    · rw [runValidate_digit_fail h12 (by simpa using hd)]
      exact ⟨rfl, Or.inr (Or.inl rfl), rfl, rfl, rfl, rfl⟩
  · rw [runValidate_length_fail h12]
    exact ⟨rfl, Or.inl rfl, rfl, rfl, rfl, rfl⟩

/-- Witness for C9 at the checksum-failing code `"123456789013"`. -/
theorem C9_witness :
    (runValidate "123456789013".data).1 = false ∧
    ((runValidate "123456789013".data).2.is_valid = false ∧
      ((runValidate "123456789013".data).2.error_message =
          lengthMsg (strip "123456789013".data).length ∨
        (runValidate "123456789013".data).2.error_message = digitMsg ∨
        (runValidate "123456789013".data).2.error_message =
          checksumMsg (checksum (strip "123456789013".data))) ∧
      (runValidate "123456789013".data).2.product_type = "" ∧
      (runValidate "123456789013".data).2.manufacturer_code = [] ∧
      (runValidate "123456789013".data).2.product_code = [] ∧
      (runValidate "123456789013".data).2.check_digit = []) :=
  ⟨by decide, C9_failure_atomicity "123456789013".data (by decide)⟩

/-- C10: the constructor strips surrounding whitespace before any check,
so a valid 12-digit code surrounded by whitespace (total length greater
than 12 when the padding is non-empty) still validates. -/
theorem C10_whitespace_stripped_before_checks :
    ∀ w₁ w₂ code : List Char,
      (∀ c ∈ w₁, isSpace c = true) → (∀ c ∈ w₂, isSpace c = true) →
      code.length = 12 → (∀ c ∈ code, c.isDigit = true) →
      checksum code % 10 = 0 →
      (runValidate (w₁ ++ code ++ w₂)).1 = true ∧
      (w₁ ++ code ++ w₂).length = w₁.length + 12 + w₂.length := by
  intro w₁ w₂ code h₁ h₂ h12 hdig hc
  have hne : code ≠ [] := List.ne_nil_of_length_pos (by omega)
  have hstrip : strip (w₁ ++ code ++ w₂) = code :=
    strip_spaces_around h₁ h₂ (fun c hcm => not_space_of_isDigit (hdig c hcm)) hne
  refine ⟨?_, by simp only [List.length_append, h12]⟩
  rw [validate_true_iff, hstrip]
  exact ⟨h12, pyIsdigit_iff.mpr ⟨hne, hdig⟩, hc⟩

/-- Witness for C10 at `" 036000291452 "` (one space of padding on each
side, total length 14). -/
theorem C10_witness :
    ((∀ c ∈ " ".data, isSpace c = true) ∧
      "036000291452".data.length = 12 ∧
      (∀ c ∈ "036000291452".data, c.isDigit = true) ∧
      checksum "036000291452".data % 10 = 0) ∧
    ((runValidate (" ".data ++ "036000291452".data ++ " ".data)).1 = true ∧
      (" ".data ++ "036000291452".data ++ " ".data).length =
        " ".data.length + 12 + " ".data.length) :=
  ⟨⟨by decide, by decide, by decide, by decide⟩,
    C10_whitespace_stripped_before_checks " ".data " ".data "036000291452".data
      (by decide) (by decide) (by decide) (by decide) (by decide)⟩

/-- C4: for every 11-digit prefix there is exactly one digit completing it
to a valid code, `solve_missing_digit` on the prefix plus a question mark
returns exactly that completion, and more generally, for a fixed position
and fixed other 11 digits, at most one of the ten candidate digits passes
`validate`, so the first success of the ascending scan is the only one. -/
theorem C4_unique_check_digit :
    (∀ p : List Char, p.length = 11 → (∀ c ∈ p, c.isDigit = true) →
      ∃ d : Nat, d < 10 ∧ (runValidate (p ++ [digitChar d])).1 = true ∧
        (∀ e : Nat, e < 10 → (runValidate (p ++ [digitChar e])).1 = true → e = d) ∧
        runSolve (p ++ ['?']) = some (p ++ [digitChar d])) ∧
    (∀ (a b : List Char) (d e : Nat),
      (∀ c ∈ a, c.isDigit = true) → (∀ c ∈ b, c.isDigit = true) →
      a.length + 1 + b.length = 12 → d < 10 → e < 10 →
      (runValidate (a ++ [digitChar d] ++ b)).1 = true →
      (runValidate (a ++ [digitChar e] ++ b)).1 = true → d = e) := by
  constructor
  · intro p hp hdig
    have hbnil : ∀ c ∈ ([] : List Char), c.isDigit = true := by simp
    have hlen' : p.length + 1 + ([] : List Char).length = 12 := by simp [hp]
    have hiff : ∀ f : Nat, f < 10 →
        ((runValidate (p ++ [digitChar f])).1 = true ↔
          (checksum p + f) % 10 = 0) := by
      intro f hf
      have h := valid_sandwich_iff (a := p) (b := []) hdig hbnil hlen' hf
      rw [List.append_nil] at h
      rw [h, if_neg (by rw [hp]; decide)]
      show (checksumAux 0 p + f + checksumAux (p.length + 1) []) % 10 = 0 ↔ _
      simp [checksumAux, checksum]
    obtain ⟨d, hd10, hdval⟩ : ∃ d, d < 10 ∧ (checksum p + d) % 10 = 0 :=
      ⟨(10 - checksum p % 10) % 10, by omega, by omega⟩
    have hdvalid : (runValidate (p ++ [digitChar d])).1 = true :=
      (hiff d hd10).mpr hdval
    have huniq : ∀ e, e < 10 →
        (runValidate (p ++ [digitChar e])).1 = true → e = d := by
      intro e he hev
      exact sandwich_unique (a := p) (b := []) hdig hbnil hlen' he hd10
        (by rwa [List.append_nil]) (by rwa [List.append_nil])
    refine ⟨d, hd10, hdvalid, huniq, ?_⟩
    have hplp : ∀ c ∈ p, isPlaceholder c = false := by
      intro c hcm
      by_cases hb : isPlaceholder c = true
      · exact absurd (hdig c hcm) (by simp [not_digit_of_placeholder hb])
      · exact Bool.eq_false_iff.mpr hb
    have hnospace : ∀ c ∈ p ++ ['?'], isSpace c = false := by
      intro c hcm
      rcases List.mem_append.mp hcm with h | h
      · exact not_space_of_isDigit (hdig c h)
      · rw [List.mem_singleton.mp h]
        decide
    have hstrip : strip (p ++ ['?']) = p ++ ['?'] := strip_all_not_space hnospace
    have hqmem : ('?' : Char) ∉ p := fun hmem => absurd (hdig '?' hmem) (by decide)
    have humem : ('_' : Char) ∉ p := fun hmem => absurd (hdig '_' hmem) (by decide)
    have hcount : (strip (p ++ ['?'])).count '?' +
        (strip (p ++ ['?'])).count '_' = 1 := by
      rw [hstrip, List.count_append, List.count_append,
        List.count_eq_zero_of_not_mem hqmem, List.count_eq_zero_of_not_mem humem]
      decide
    have hfind : (p ++ ['?']).findIdx isPlaceholder = p.length := by
      rw [List.findIdx_append, List.findIdx_eq_length.mpr hplp,
        if_neg (lt_irrefl p.length),
        show List.findIdx isPlaceholder ['?'] = 0 from by decide, Nat.zero_add]
    have hsub : ∀ f : Nat, substitute (p ++ ['?']) p.length f = p ++ [digitChar f] :=
      fun f => substitute_at_end p '?' f
    rw [runSolve_eq_solveLoop hcount, hstrip, hfind]
    have hloop := solveLoop_eq_some_of_unique (p ++ ['?']) p.length d
      (by rw [hsub]; exact hdvalid) (List.range 10) (List.mem_range.mpr hd10)
      (fun e he hev => huniq e (List.mem_range.mp he) (by rwa [hsub] at hev))
    rw [hsub] at hloop
    exact hloop
  · intro a b d e ha hb hlen hd he h₁ h₂
    exact sandwich_unique ha hb hlen hd he h₁ h₂

/-- Witness for C4 at the 11-digit prefix `"03600029145"` (the unique
completing digit is 2). -/
theorem C4_witness :
    ("03600029145".data.length = 11 ∧
      (∀ c ∈ "03600029145".data, c.isDigit = true)) ∧
    (∃ d : Nat, d < 10 ∧
      (runValidate ("03600029145".data ++ [digitChar d])).1 = true ∧
      (∀ e : Nat, e < 10 →
        (runValidate ("03600029145".data ++ [digitChar e])).1 = true → e = d) ∧
      runSolve ("03600029145".data ++ ['?']) =
        some ("03600029145".data ++ [digitChar d])) :=
  ⟨⟨by decide, by decide⟩,
    C4_unique_check_digit.1 "03600029145".data (by decide) (by decide)⟩

/-- C5: whenever `solve_missing_digit` returns a string, that string is a
fully-resolved 12-digit string on which `validate` succeeds, it is the
(stripped) input with a single digit 0-9 substituted at the placeholder
position found by the scan, and it is the first success in the ascending
0-to-9 candidate order. -/
theorem C5_solver_output_sound :
    ∀ s r : List Char, runSolve s = some r →
      ∃ d : Nat, d < 10 ∧
        r = substitute (strip s) ((strip s).findIdx isPlaceholder) d ∧
        r.length = 12 ∧ (∀ c ∈ r, c.isDigit = true) ∧
        (runValidate r).1 = true ∧
        ∀ e, e < d →
          (runValidate (substitute (strip s) ((strip s).findIdx isPlaceholder) e)).1 =
            false := by
  intro s r hsolve
  have hcount : (strip s).count '?' + (strip s).count '_' = 1 := by
    by_contra hne
    have hcond : (init s).upc_code.count '?' + (init s).upc_code.count '_' ≠ 1 := hne
    unfold runSolve solve_missing_digit at hsolve
    rw [if_pos hcond] at hsolve
    cases hsolve
  rw [runSolve_eq_solveLoop hcount, List.range_eq_range'] at hsolve
  obtain ⟨d, -, hd10, hr, hvalid, hmin⟩ :=
    solveLoop_range'_some (strip s) ((strip s).findIdx isPlaceholder) 10 0 r hsolve
  have hex : ∃ c ∈ strip s, isPlaceholder c = true := count_one_exists hcount
  have hposlt : (strip s).findIdx isPlaceholder < (strip s).length :=
    List.findIdx_lt_length_of_exists hex
  have hstripr : strip r = r := by
    rw [hr]
    exact strip_substitute hposlt (by omega)
  have hv := (validate_true_iff r).mp (by rw [← hr] at hvalid; exact hvalid)
  rw [hstripr] at hv
  obtain ⟨hlen, hpy, hchk⟩ := hv
  refine ⟨d, by omega, hr, hlen, (pyIsdigit_iff.mp hpy).2, ?_, ?_⟩
  · rw [hr]
    exact hvalid
  · intro e he
    exact hmin e (by omega) he

/-- Witness for C5 at `"03600029145?"`, which solves to `"036000291452"`. -/
theorem C5_witness :
    runSolve "03600029145?".data = some "036000291452".data ∧
    (∃ d : Nat, d < 10 ∧
      "036000291452".data =
        substitute (strip "03600029145?".data)
          ((strip "03600029145?".data).findIdx isPlaceholder) d ∧
      "036000291452".data.length = 12 ∧
      (∀ c ∈ "036000291452".data, c.isDigit = true) ∧
      (runValidate "036000291452".data).1 = true ∧
      ∀ e, e < d →
        (runValidate (substitute (strip "03600029145?".data)
          ((strip "03600029145?".data).findIdx isPlaceholder) e)).1 = false) :=
  ⟨by decide,
    C5_solver_output_sound "03600029145?".data "036000291452".data (by decide)⟩

end UPC
